import Mathlib

/-!
# Quote/Order/Invoice lifecycle of the claritymirror repository

A shallow embedding of the commerce-lifecycle logic of the repository:

* `handleGenerateOrder` — from `OrcamentosContent.handleGenerateOrder`
  (quote page content component, `src/unnamed/part_005`, lines 241–299);
* `onSubmit` — from `GenerateInvoiceDialog.onSubmit`
  (`src/unnamed/part_003`, lines 131–212) together with the dialog's
  order query (`status not-in ['Cancelado']`, lines 88–96) and the zod
  `invoiceSchema` (lines 45–51);
* `handleCancelInvoice` — from `InvoicesContent.handleCancelInvoice`
  (`src/src/app/(app)/invoices/invoices-content.tsx`, lines 69–107);
* `handleMarkAsBilled` — from `OrdersTable.handleMarkAsBilled`
  (`src/src/app/(app)/orders/orders-table.tsx`, lines 67–89).

The document store (Firestore) is modelled as three lists of records held in
a `Store`; each handler is a function from the store (plus the handler's
arguments and the ids/timestamps produced by the environment) to the store
after all of the handler's awaited writes have completed.  This captures the
sequential, single-session executions the claims quantify over; the local
component state mirrors the store between operations, so handler arguments
that the UI takes from local state (the selected quote, invoice or order)
are records of the current store.

Currency amounts (JavaScript decimal numbers in the source) are modelled as
rationals.  Timestamps are opaque strings.  `jsTrim` models
`String.prototype.trim`.  Fields of the records that the lifecycle logic
never reads or writes (product configuration of a quote, phone numbers,
etc.) are omitted; every field the four handlers read or write is present.
-/

/-- Quote status: `'Pendente' | 'Aprovado' | 'Rejeitado'`. -/
inductive QuoteStatus
  | pendente
  | aprovado
  | rejeitado
deriving DecidableEq

/-- Order status:
`'Processando' | 'Enviado' | 'Entregue' | 'Cancelado' | 'Exceção' | 'Faturado'`
(the keys of `statusVariantMap` in `orders-table.tsx`). -/
inductive OrderStatus
  | processando
  | enviado
  | entregue
  | cancelado
  | excecao
  | faturado
deriving DecidableEq

/-- Invoice status: `'Paga' | 'Pendente' | 'Cancelado'`
(the keys of `statusVariantMap` in `invoices-content.tsx`). -/
inductive InvoiceStatus
  | paga
  | pendente
  | cancelado
deriving DecidableEq

/-- A quote (`Orcamento`), restricted to the fields the lifecycle reads:
id, denormalized client name/email, price and status. -/
structure Orcamento where
  id : String
  clientName : String
  clientEmail : String
  price : ℚ
  status : QuoteStatus
deriving DecidableEq

/-- Customer snapshot stored on an order (`customer: {name, email}`). -/
structure Customer where
  name : String
  email : String
deriving DecidableEq

/-- An order document, as written by `handleGenerateOrder` and mutated by
`onSubmit`, `handleCancelInvoice` and `handleMarkAsBilled`. -/
structure Order where
  id : String
  orcamentoId : String
  customer : Customer
  date : String
  amount : ℚ
  status : OrderStatus
  outstanding : ℚ
  createdAt : String
deriving DecidableEq

/-- An invoice document, as written by `onSubmit`.  The source stores
`accessKey: data.accessKey?.trim()`; the dialog's form default is `''`, so
an absent access key is the empty string. -/
structure Invoice where
  id : String
  invoiceNumber : String
  accessKey : String
  orderId : String
  customerName : String
  date : String
  status : InvoiceStatus
  total : ℚ
  createdAt : String
deriving DecidableEq

/-- The document store: the `orcamentos`, `orders` and `invoices`
collections. -/
structure Store where
  orcamentos : List Orcamento
  orders : List Order
  invoices : List Invoice
deriving DecidableEq

/-- `String.prototype.trim`: drop leading and trailing whitespace. -/
def jsTrim (s : String) : String :=
  String.mk (((s.data.dropWhile Char.isWhitespace).reverse.dropWhile
    Char.isWhitespace).reverse)

/-- Result of `handleGenerateOrder`: either the created order, or the
"Pedido já existe" duplicate outcome. -/
inductive GenerateOrderResult
  | created (o : Order)
  | duplicate
deriving DecidableEq

/-- `OrcamentosContent.handleGenerateOrder` (`src/unnamed/part_005`,
lines 241–299).  Queries `orders` for `orcamentoId == orcamento.id`; if any
exist it aborts with the duplicate outcome and performs no write.
Otherwise a single batch inserts the new order (customer snapshot, amount
and outstanding both set to the quote's price, status `'Processando'`) and,
when the quote is not already `'Aprovado'`, sets the quote document's
status to `'Aprovado'`.  `newId` is the id Firestore generates for the new
order document and `now` the `new Date().toISOString()` timestamp. -/
def handleGenerateOrder (s : Store) (orcamento : Orcamento)
    (newId now : String) : GenerateOrderResult × Store :=
  if ∃ o ∈ s.orders, o.orcamentoId = orcamento.id then
    (.duplicate, s)
  else
    let newOrder : Order :=
      { id := newId
        orcamentoId := orcamento.id
        customer := { name := orcamento.clientName, email := orcamento.clientEmail }
        date := now
        amount := orcamento.price
        status := .processando
        outstanding := orcamento.price
        createdAt := now }
    let newOrcamentos :=
      if orcamento.status = .aprovado then s.orcamentos
      else s.orcamentos.map fun q =>
        if q.id = orcamento.id then { q with status := .aprovado } else q
    (.created newOrder,
      { s with orders := s.orders ++ [newOrder], orcamentos := newOrcamentos })

/-- The values of the invoice dialog's form (`InvoiceFormValues` in
`src/unnamed/part_003`). -/
structure InvoiceFormValues where
  orderId : String
  invoiceNumber : String
  accessKey : String
  issueDate : String
  amount : ℚ
deriving DecidableEq

/-- The zod `invoiceSchema` (`src/unnamed/part_003`, lines 45–51): a
non-empty `orderId`, a non-empty `invoiceNumber`, an `accessKey` that is
`''` or exactly 44 characters, and `amount ≥ 0.01`.  The submit button is
disabled unless the form validates, so `onSubmit` only ever runs on valid
values. -/
abbrev InvoiceFormValues.valid (f : InvoiceFormValues) : Prop :=
  f.orderId ≠ "" ∧ f.invoiceNumber ≠ "" ∧
    (f.accessKey = "" ∨ f.accessKey.length = 44) ∧ mkRat 1 100 ≤ f.amount

/-- Result of `onSubmit`: the created invoice, or one of the three
rejection toasts (duplicate invoice number, duplicate access key,
"Pedido não encontrado"). -/
inductive GenerateInvoiceResult
  | created (inv : Invoice)
  | duplicateInvoiceNumber
  | duplicateAccessKey
  | orderNotFound
deriving DecidableEq

/-- The order list the invoice dialog fetches when it opens
(`src/unnamed/part_003`, line 93): all orders whose status is not in
`['Cancelado']`. -/
def pendingOrders (s : Store) : List Order :=
  s.orders.filter fun o => decide ¬(o.status = .cancelado)

/-- `GenerateInvoiceDialog.onSubmit` (`src/unnamed/part_003`,
lines 131–212).
1. If an invoice with `invoiceNumber == data.invoiceNumber.trim()` exists,
   reject with the duplicate-number toast (no write).
2. If `data.accessKey` is truthy and its trim has length 44 and an invoice
   with that trimmed access key exists, reject with the duplicate-key toast
   (no write).
3. Look the target order up in the dialog's fetched list (`pendingOrders`);
   if absent, reject with "Pedido não encontrado" (no write).
4. Otherwise insert the invoice (trimmed number and key, status `'Paga'`,
   `total = data.amount`) and update the order document:
   `newOutstanding = selectedOrder.outstanding - data.amount`;
   `outstanding := max 0 newOutstanding`;
   `status := newOutstanding <= 0 ? 'Faturado' : selectedOrder.status`. -/
def onSubmit (s : Store) (f : InvoiceFormValues) (newId now : String) :
    GenerateInvoiceResult × Store :=
  if ∃ i ∈ s.invoices, i.invoiceNumber = jsTrim f.invoiceNumber then
    (.duplicateInvoiceNumber, s)
  else if f.accessKey ≠ "" ∧ (jsTrim f.accessKey).length = 44 ∧
      ∃ i ∈ s.invoices, i.accessKey = jsTrim f.accessKey then
    (.duplicateAccessKey, s)
  else
    match (pendingOrders s).find? fun o => decide (o.id = f.orderId) with
    | none => (.orderNotFound, s)
    | some selectedOrder =>
      let newInvoice : Invoice :=
        { id := newId
          invoiceNumber := jsTrim f.invoiceNumber
          accessKey := jsTrim f.accessKey
          orderId := f.orderId
          customerName := selectedOrder.customer.name
          date := f.issueDate
          status := .paga
          total := f.amount
          createdAt := now }
      let newOutstanding := selectedOrder.outstanding - f.amount
      (.created newInvoice,
        { s with
          invoices := s.invoices ++ [newInvoice]
          orders := s.orders.map fun o =>
            if o.id = f.orderId then
              { o with
                outstanding := max 0 newOutstanding
                status := if newOutstanding ≤ 0 then .faturado else selectedOrder.status }
            else o })

/-- `InvoicesContent.handleCancelInvoice` (`invoices-content.tsx`,
lines 69–107).  Returns at once when the invoice is already `'Cancelado'`.
Otherwise it sets the invoice document's status to `'Cancelado'`; then, if
the invoice was `'Paga'` and its `orderId` is truthy, it reads that order
document and, when it exists, sets
`outstanding := orderData.outstanding + invoiceToCancel.total` and
`status := 'Processando'` (the source's `orderData.outstanding || 0`
coincides with `orderData.outstanding` here since amounts are exact).
When the order document does not exist nothing else is written and the
call still completes successfully. -/
def handleCancelInvoice (s : Store) (invoiceToCancel : Invoice) : Store :=
  if invoiceToCancel.status = .cancelado then s
  else
    let newInvoices := s.invoices.map fun i =>
      if i.id = invoiceToCancel.id then { i with status := .cancelado } else i
    if invoiceToCancel.status = .paga ∧ invoiceToCancel.orderId ≠ "" then
      match s.orders.find? fun o => decide (o.id = invoiceToCancel.orderId) with
      | none => { s with invoices := newInvoices }
      | some orderData =>
        { s with
          invoices := newInvoices
          orders := s.orders.map fun o =>
            if o.id = invoiceToCancel.orderId then
              { o with
                status := .processando
                outstanding := orderData.outstanding + invoiceToCancel.total }
            else o }
    else { s with invoices := newInvoices }

/-- `OrdersTable.handleMarkAsBilled` (`orders-table.tsx`, lines 67–89).
Returns at once when `outstanding === 0`; otherwise sets the order
document's status to `'Faturado'` and its outstanding to `0`. -/
def handleMarkAsBilled (s : Store) (orderToBill : Order) : Store :=
  if orderToBill.outstanding = 0 then s
  else
    { s with orders := s.orders.map fun o =>
        if o.id = orderToBill.id then
          { o with status := .faturado, outstanding := 0 }
        else o }

/-- The zod schema of `novo-orcamento-dialog.tsx` (line 55) validates
`price: z.coerce.number().min(0.01)`, so every quote is created with a
price of at least `0.01`. -/
abbrev Orcamento.validPrice (q : Orcamento) : Prop := mkRat 1 100 ≤ q.price

/-- Stores reachable by sequences of the four lifecycle operations,
starting from a store that holds only quotes (each created through the
validated quote form, hence with `price ≥ 0.01`).  The record arguments of
each step (`q`, `inv`, `o`) come from the UI's local state, which mirrors
the store between sequential operations, hence the membership premises;
`onSubmit` runs only on forms accepted by the zod schema. -/
inductive Reach : Store → Prop
  | init (qs : List Orcamento) (hq : ∀ q ∈ qs, q.validPrice) :
      Reach { orcamentos := qs, orders := [], invoices := [] }
  | generateOrder (s : Store) (q : Orcamento) (newId now : String)
      (hs : Reach s) (hq : q ∈ s.orcamentos) :
      Reach (handleGenerateOrder s q newId now).2
  | generateInvoice (s : Store) (f : InvoiceFormValues) (newId now : String)
      (hs : Reach s) (hf : f.valid) :
      Reach (onSubmit s f newId now).2
  | cancelInvoice (s : Store) (inv : Invoice) (hs : Reach s)
      (hi : inv ∈ s.invoices) :
      Reach (handleCancelInvoice s inv)
  | markBilled (s : Store) (o : Order) (hs : Reach s) (ho : o ∈ s.orders) :
      Reach (handleMarkAsBilled s o)

/-- Claimed invariant of C1: every order satisfies
`0 ≤ outstanding ≤ amount`. -/
abbrev outstandingBounds (s : Store) : Prop :=
  ∀ o ∈ s.orders, 0 ≤ o.outstanding ∧ o.outstanding ≤ o.amount

/-- The lower bound alone: every order satisfies `0 ≤ outstanding`. -/
abbrev outstandingNonneg (s : Store) : Prop :=
  ∀ o ∈ s.orders, 0 ≤ o.outstanding

/-- Every order satisfies `status = 'Faturado'` iff `outstanding = 0`. -/
abbrev invoicedIffSettled (s : Store) : Prop :=
  ∀ o ∈ s.orders, (o.status = .faturado ↔ o.outstanding = 0)

/-- No two persisted invoices share an invoice number. -/
abbrev invoiceNumbersNodup (s : Store) : Prop :=
  (s.invoices.map fun i => i.invoiceNumber).Nodup

/-- Claimed in C2: no two persisted invoices that carry a non-empty access
key share that access key. -/
abbrev nonEmptyAccessKeysNodup (s : Store) : Prop :=
  ((s.invoices.map fun i => i.accessKey).filter fun k => decide ¬(k = "")).Nodup

/-- No two persisted invoices whose stored access key has the full
44-character length share that access key. -/
abbrev fullAccessKeysNodup (s : Store) : Prop :=
  ((s.invoices.map fun i => i.accessKey).filter fun k => decide (k.length = 44)).Nodup

/-- Combined inductive invariant of the lifecycle: quote prices and invoice
totals are at least `0.01`, order outstandings are nonnegative, and an
order's status is `'Faturado'` exactly when its outstanding is zero. -/
def LifecycleInv (s : Store) : Prop :=
  (∀ q ∈ s.orcamentos, q.validPrice) ∧
    (∀ i ∈ s.invoices, mkRat 1 100 ≤ i.total) ∧
    (∀ o ∈ s.orders, 0 ≤ o.outstanding ∧ (o.status = .faturado ↔ o.outstanding = 0))

/-! ### Concrete records used by witnesses and counterexamples -/

/-- A freshly created quote. -/
def orcW : Orcamento :=
  { id := "q1", clientName := "Ana Lima", clientEmail := "ana@example.com",
    price := 1250, status := .pendente }

/-- The same quote after approval. -/
def orcWapr : Orcamento :=
  { id := "q1", clientName := "Ana Lima", clientEmail := "ana@example.com",
    price := 1250, status := .aprovado }

/-- Initial store: one pending quote, no orders, no invoices. -/
def storeW0 : Store := { orcamentos := [orcW], orders := [], invoices := [] }

/-- The order `handleGenerateOrder` creates from `orcW`. -/
def orderW : Order :=
  { id := "o1", orcamentoId := "q1",
    customer := { name := "Ana Lima", email := "ana@example.com" },
    date := "t1", amount := 1250, status := .processando, outstanding := 1250,
    createdAt := "t1" }

/-- The store after generating the order from `orcW`. -/
def storeW1 : Store :=
  { orcamentos := [orcWapr], orders := [orderW], invoices := [] }

/-- A paid invoice of 500 over `orderW`. -/
def invW : Invoice :=
  { id := "i1", invoiceNumber := "100", accessKey := "", orderId := "o1",
    customerName := "Ana Lima", date := "d1", status := .paga, total := 500,
    createdAt := "t2" }

/-- A store holding `orderW` together with the paid invoice `invW`. -/
def storeW2 : Store :=
  { orcamentos := [orcWapr], orders := [orderW], invoices := [invW] }

/-- A cancelled order. -/
def orderWc : Order :=
  { id := "o9", orcamentoId := "q9", customer := { name := "Cris", email := "cris@example.com" },
    date := "t1", amount := 700, status := .cancelado, outstanding := 700,
    createdAt := "t1" }

/-- A store whose only order is cancelled. -/
def storeW3 : Store := { orcamentos := [], orders := [orderWc], invoices := [] }

/-- A paid invoice whose `orderId` matches no order of `storeW2`. -/
def invW10 : Invoice :=
  { id := "i5", invoiceNumber := "200", accessKey := "", orderId := "oX",
    customerName := "Duda", date := "d1", status := .paga, total := 30,
    createdAt := "t3" }

/-- An invoice form paying 2000 against `orderW`, whose outstanding is only
1250: the overpayment is floored at zero by `onSubmit`. -/
def formC1 : InvoiceFormValues :=
  { orderId := "o1", invoiceNumber := "300", accessKey := "",
    issueDate := "d1", amount := 2000 }

/-- The invoice `onSubmit` creates for `formC1` on `storeW1`. -/
def invC1 : Invoice :=
  { id := "i1", invoiceNumber := "300", accessKey := "", orderId := "o1",
    customerName := "Ana Lima", date := "d1", status := .paga, total := 2000,
    createdAt := "t2" }

/-- `storeW1` after the overpaying invoice: outstanding floored at `0`,
order marked `'Faturado'`. -/
def storeC1c : Store :=
  { orcamentos := [orcWapr],
    orders := [{ orderW with outstanding := 0, status := .faturado }],
    invoices := [invC1] }

/-- `storeC1c` after cancelling `invC1`: the full invoice total of 2000 is
added back, driving the order's outstanding to 2000 > amount = 1250. -/
def storeC1final : Store :=
  { orcamentos := [orcWapr],
    orders := [{ orderW with outstanding := 2000, status := .processando }],
    invoices := [{ invC1 with status := .cancelado }] }

/-- 43 repetitions of `'X'`. -/
def key43 : String := String.mk (List.replicate 43 'X')

/-- A 44-character access key whose last character is a space: it passes the
zod length-44 validation, but its trim is only 43 characters long, so
`onSubmit` skips the duplicate-access-key check for it. -/
def key44 : String := key43 ++ " "

/-- A quote used for the duplicate-access-key trace. -/
def orcC2 : Orcamento :=
  { id := "q2", clientName := "Bia Reis", clientEmail := "bia@example.com",
    price := 100, status := .pendente }

/-- `orcC2` after approval. -/
def orcC2apr : Orcamento :=
  { id := "q2", clientName := "Bia Reis", clientEmail := "bia@example.com",
    price := 100, status := .aprovado }

/-- Initial store of the duplicate-access-key trace. -/
def storeC2a : Store := { orcamentos := [orcC2], orders := [], invoices := [] }

/-- The order generated from `orcC2`. -/
def ordC2 : Order :=
  { id := "o2", orcamentoId := "q2",
    customer := { name := "Bia Reis", email := "bia@example.com" },
    date := "t1", amount := 100, status := .processando, outstanding := 100,
    createdAt := "t1" }

/-- Store after generating the order from `orcC2`. -/
def storeC2b : Store :=
  { orcamentos := [orcC2apr], orders := [ordC2], invoices := [] }

/-- First invoice form: number `"A1"`, the trailing-space access key, 1. -/
def formC2a : InvoiceFormValues :=
  { orderId := "o2", invoiceNumber := "A1", accessKey := key44,
    issueDate := "d1", amount := 1 }

/-- Second invoice form: fresh number `"B2"`, same access key. -/
def formC2b : InvoiceFormValues :=
  { orderId := "o2", invoiceNumber := "B2", accessKey := key44,
    issueDate := "d2", amount := 1 }

/-- The invoice created for `formC2a`: its stored access key is the
43-character trim of `key44`. -/
def invC2a : Invoice :=
  { id := "iA", invoiceNumber := "A1", accessKey := key43, orderId := "o2",
    customerName := "Bia Reis", date := "d1", status := .paga, total := 1,
    createdAt := "t2" }

/-- The invoice created for `formC2b`: same stored 43-character key. -/
def invC2b : Invoice :=
  { id := "iB", invoiceNumber := "B2", accessKey := key43, orderId := "o2",
    customerName := "Bia Reis", date := "d2", status := .paga, total := 1,
    createdAt := "t3" }

/-- Store after the first invoice of the duplicate-access-key trace. -/
def storeC2c : Store :=
  { orcamentos := [orcC2apr],
    orders := [{ ordC2 with outstanding := 99 }],
    invoices := [invC2a] }

/-- Store after the second invoice: two persisted invoices with the same
non-empty 43-character access key. -/
def storeC2final : Store :=
  { orcamentos := [orcC2apr],
    orders := [{ ordC2 with outstanding := 98 }],
    invoices := [invC2a, invC2b] }

/-- A valid invoice form paying exactly `orderW`'s outstanding. -/
def formW3 : InvoiceFormValues :=
  { orderId := "o1", invoiceNumber := "500", accessKey := "",
    issueDate := "d1", amount := 1250 }

/-- An invoice form whose number trims to the number of `invW`. -/
def formW7 : InvoiceFormValues :=
  { orderId := "o1", invoiceNumber := " 100 ", accessKey := "",
    issueDate := "d1", amount := 10 }

/-- An invoice form targeting the cancelled order `orderWc`. -/
def formW9 : InvoiceFormValues :=
  { orderId := "o9", invoiceNumber := "77", accessKey := "",
    issueDate := "d1", amount := 5 }


theorem cent_pos : (0 : ℚ) < mkRat 1 100 := by decide

theorem lifecycleInv_handleGenerateOrder (s : Store) (q : Orcamento)
    (newId now : String) (h : LifecycleInv s) (hq : q ∈ s.orcamentos) :
    LifecycleInv (handleGenerateOrder s q newId now).2 := by
  obtain ⟨hqs, hinv, hord⟩ := h
  have hprice : mkRat 1 100 ≤ q.price := hqs q hq
  by_cases hdup : ∃ o ∈ s.orders, o.orcamentoId = q.id
  · simp only [handleGenerateOrder, if_pos hdup]
    exact ⟨hqs, hinv, hord⟩
  · simp only [handleGenerateOrder, if_neg hdup]
    refine ⟨?_, hinv, ?_⟩
    · intro qq hqq
      by_cases happ : q.status = .aprovado
      · rw [if_pos happ] at hqq
        exact hqs qq hqq
      · rw [if_neg happ] at hqq
        obtain ⟨qq0, hqq0, hmap⟩ := List.mem_map.mp hqq
        by_cases hid : qq0.id = q.id
        · rw [if_pos hid] at hmap
          subst hmap
          exact hqs qq0 hqq0
        · rw [if_neg hid] at hmap
          subst hmap
          exact hqs qq0 hqq0
    · intro o ho
      rcases List.mem_append.mp ho with h1 | h1
      · exact hord o h1
      · have heq := List.mem_singleton.mp h1
        subst heq
        refine ⟨le_trans (le_of_lt cent_pos) hprice, ?_⟩
        constructor
        · intro hst
          simp at hst
        · intro hz
          exact absurd hz (ne_of_gt (lt_of_lt_of_le cent_pos hprice))

theorem lifecycleInv_onSubmit (s : Store) (f : InvoiceFormValues)
    (newId now : String) (h : LifecycleInv s) (hf : f.valid) :
    LifecycleInv (onSubmit s f newId now).2 := by
  obtain ⟨hqs, hinv, hord⟩ := h
  obtain ⟨-, -, -, hamt⟩ := hf
  by_cases h1 : ∃ i ∈ s.invoices, i.invoiceNumber = jsTrim f.invoiceNumber
  · simp only [onSubmit, if_pos h1]
    exact ⟨hqs, hinv, hord⟩
  by_cases h2 : f.accessKey ≠ "" ∧ (jsTrim f.accessKey).length = 44 ∧
      ∃ i ∈ s.invoices, i.accessKey = jsTrim f.accessKey
  · simp only [onSubmit, if_neg h1, if_pos h2]
    exact ⟨hqs, hinv, hord⟩
  rcases hfind : (pendingOrders s).find? fun o => decide (o.id = f.orderId) with - | sel
  · simp only [onSubmit, if_neg h1, if_neg h2, hfind]
    exact ⟨hqs, hinv, hord⟩
  · have hselmem : sel ∈ s.orders :=
      (List.mem_filter.mp (List.mem_of_find?_eq_some hfind)).1
    have hsel := hord sel hselmem
    simp only [onSubmit, if_neg h1, if_neg h2, hfind]
    refine ⟨hqs, ?_, ?_⟩
    · intro i hi
      rcases List.mem_append.mp hi with hi1 | hi1
      · exact hinv i hi1
      · rw [List.mem_singleton.mp hi1]
        exact hamt
    · intro o ho
      obtain ⟨o0, ho0, hmap⟩ := List.mem_map.mp ho
      by_cases hid : o0.id = f.orderId
      · rw [if_pos hid] at hmap
        by_cases hle : sel.outstanding - f.amount ≤ 0
        · rw [if_pos hle] at hmap
          subst hmap
          refine ⟨?_, ?_⟩
          · exact le_max_left 0 _
          · constructor
            · intro _
              exact max_eq_left hle
            · intro _
              rfl
        · rw [if_neg hle] at hmap
          subst hmap
          have hpos : 0 < sel.outstanding - f.amount := lt_of_not_le hle
          have houtpos : 0 < sel.outstanding :=
            lt_of_lt_of_le cent_pos
              (le_trans hamt (by linarith))
          have hnotfat : ¬ sel.status = .faturado := by
            intro hfat
            exact absurd (hsel.2.mp hfat) (ne_of_gt houtpos)
          refine ⟨le_max_left 0 _, ?_⟩
          constructor
          · intro hst
            exact absurd hst hnotfat
          · intro hz
            rw [max_eq_right (le_of_lt hpos)] at hz
            exact absurd hz (ne_of_gt hpos)
      · rw [if_neg hid] at hmap
        subst hmap
        exact hord o0 ho0

theorem lifecycleInv_handleCancelInvoice (s : Store) (inv : Invoice)
    (h : LifecycleInv s) (hi : inv ∈ s.invoices) :
    LifecycleInv (handleCancelInvoice s inv) := by
  obtain ⟨hqs, hinv, hord⟩ := h
  have htot : mkRat 1 100 ≤ inv.total := hinv inv hi
  have hinv2 : ∀ i ∈ s.invoices.map fun i =>
      if i.id = inv.id then { i with status := InvoiceStatus.cancelado } else i,
      mkRat 1 100 ≤ i.total := by
    intro i hi2
    obtain ⟨i0, hi0, hmap⟩ := List.mem_map.mp hi2
    by_cases hid : i0.id = inv.id
    · rw [if_pos hid] at hmap
      rw [← hmap]
      exact hinv i0 hi0
    · rw [if_neg hid] at hmap
      rw [← hmap]
      exact hinv i0 hi0
  by_cases hc : inv.status = .cancelado
  · simp only [handleCancelInvoice, if_pos hc]
    exact ⟨hqs, hinv, hord⟩
  by_cases hp : inv.status = .paga ∧ inv.orderId ≠ ""
  · rcases hfindo : s.orders.find? fun o => decide (o.id = inv.orderId) with - | od
    · simp only [handleCancelInvoice, if_neg hc, if_pos hp, hfindo]
      exact ⟨hqs, hinv2, hord⟩
    · have hodmem : od ∈ s.orders := List.mem_of_find?_eq_some hfindo
      simp only [handleCancelInvoice, if_neg hc, if_pos hp, hfindo]
      refine ⟨hqs, hinv2, ?_⟩
      intro o ho
      obtain ⟨o0, ho0, hmap⟩ := List.mem_map.mp ho
      by_cases hid : o0.id = inv.orderId
      · rw [if_pos hid] at hmap
        subst hmap
        have hsum : 0 < od.outstanding + inv.total :=
          add_pos_of_nonneg_of_pos (hord od hodmem).1 (lt_of_lt_of_le cent_pos htot)
        refine ⟨le_of_lt hsum, ?_⟩
        constructor
        · intro hst
          simp at hst
        · intro hz
          exact absurd hz (ne_of_gt hsum)
      · rw [if_neg hid] at hmap
        subst hmap
        exact hord o0 ho0
  · simp only [handleCancelInvoice, if_neg hc, if_neg hp]
    exact ⟨hqs, hinv2, hord⟩

theorem lifecycleInv_handleMarkAsBilled (s : Store) (o : Order)
    (h : LifecycleInv s) : LifecycleInv (handleMarkAsBilled s o) := by
  obtain ⟨hqs, hinv, hord⟩ := h
  by_cases hz : o.outstanding = 0
  · simp only [handleMarkAsBilled, if_pos hz]
    exact ⟨hqs, hinv, hord⟩
  · simp only [handleMarkAsBilled, if_neg hz]
    refine ⟨hqs, hinv, ?_⟩
    intro o1 ho1
    obtain ⟨o0, ho0, hmap⟩ := List.mem_map.mp ho1
    by_cases hid : o0.id = o.id
    · rw [if_pos hid] at hmap
      subst hmap
      exact ⟨le_refl 0, by constructor <;> intro <;> rfl⟩
    · rw [if_neg hid] at hmap
      subst hmap
      exact hord o0 ho0

/-- Every reachable store satisfies the combined lifecycle invariant. -/
theorem reach_lifecycleInv (s : Store) (h : Reach s) : LifecycleInv s := by
  induction h with
  | init qs hq =>
      exact ⟨hq, by intro i hi; exact absurd hi (List.not_mem_nil i),
        by intro o ho; exact absurd ho (List.not_mem_nil o)⟩
  | generateOrder s q newId now hs hq ih =>
      exact lifecycleInv_handleGenerateOrder s q newId now ih hq
  | generateInvoice s f newId now hs hf ih =>
      exact lifecycleInv_onSubmit s f newId now ih hf
  | cancelInvoice s inv hs hi ih =>
      exact lifecycleInv_handleCancelInvoice s inv ih hi
  | markBilled s o hs ho ih =>
      exact lifecycleInv_handleMarkAsBilled s o ih

theorem handleGenerateOrder_invoices (s : Store) (q : Orcamento)
    (newId now : String) :
    (handleGenerateOrder s q newId now).2.invoices = s.invoices := by
  unfold handleGenerateOrder
  split <;> rfl

theorem handleMarkAsBilled_invoices (s : Store) (o : Order) :
    (handleMarkAsBilled s o).invoices = s.invoices := by
  unfold handleMarkAsBilled
  split <;> rfl

/-- `handleCancelInvoice` only rewrites invoice statuses, so any projection
of the invoices that ignores the status is preserved. -/
theorem handleCancelInvoice_invoices_map {β : Type} (g : Invoice → β)
    (hg : ∀ i, g { i with status := InvoiceStatus.cancelado } = g i)
    (s : Store) (inv : Invoice) :
    (handleCancelInvoice s inv).invoices.map g = s.invoices.map g := by
  have hmap : (s.invoices.map fun i =>
      if i.id = inv.id then { i with status := InvoiceStatus.cancelado } else i).map g
      = s.invoices.map g := by
    rw [List.map_map]
    refine List.map_congr_left ?_
    intro i _
    by_cases hid : i.id = inv.id
    · simp only [Function.comp, if_pos hid, hg]
    · simp only [Function.comp, if_neg hid]
  unfold handleCancelInvoice
  split
  · rfl
  · split
    · split <;> exact hmap
    · exact hmap

theorem numbersNodup_append (l : List Invoice) (inv : Invoice)
    (h : (l.map fun i => i.invoiceNumber).Nodup)
    (hnot : ¬ ∃ i ∈ l, i.invoiceNumber = inv.invoiceNumber) :
    ((l ++ [inv]).map fun i => i.invoiceNumber).Nodup := by
  rw [List.map_append, List.nodup_append]
  simp only [List.map_cons, List.map_nil]
  refine ⟨h, List.nodup_singleton _, ?_⟩
  rw [List.disjoint_singleton]
  intro hmem
  obtain ⟨i, hi, hieq⟩ := List.mem_map.mp hmem
  exact hnot ⟨i, hi, hieq⟩

theorem keysNodup_append (l : List Invoice) (inv : Invoice)
    (h : ((l.map fun i => i.accessKey).filter fun k => decide (k.length = 44)).Nodup)
    (hnot : inv.accessKey.length = 44 → ¬ ∃ i ∈ l, i.accessKey = inv.accessKey) :
    (((l ++ [inv]).map fun i => i.accessKey).filter
      fun k => decide (k.length = 44)).Nodup := by
  rw [List.map_append, List.filter_append]
  simp only [List.map_cons, List.map_nil]
  by_cases hk : inv.accessKey.length = 44
  · have hfil : ([inv.accessKey].filter fun k => decide (k.length = 44))
        = [inv.accessKey] := by
      simp [List.filter, hk]
    rw [hfil, List.nodup_append]
    refine ⟨h, List.nodup_singleton _, ?_⟩
    rw [List.disjoint_singleton]
    intro hmem
    have hmem2 : inv.accessKey ∈ l.map fun i => i.accessKey :=
      (List.mem_filter.mp hmem).1
    obtain ⟨i, hi, hieq⟩ := List.mem_map.mp hmem2
    exact hnot hk ⟨i, hi, hieq⟩
  · have hfil : ([inv.accessKey].filter fun k => decide (k.length = 44))
        = [] := by
      simp [List.filter, hk]
    rw [hfil, List.append_nil]
    exact h


theorem uniq_onSubmit (s : Store) (f : InvoiceFormValues) (newId now : String)
    (h : invoiceNumbersNodup s ∧ fullAccessKeysNodup s) :
    invoiceNumbersNodup (onSubmit s f newId now).2 ∧
      fullAccessKeysNodup (onSubmit s f newId now).2 := by
  obtain ⟨hnum, hkey⟩ := h
  by_cases h1 : ∃ i ∈ s.invoices, i.invoiceNumber = jsTrim f.invoiceNumber
  · simp only [onSubmit, if_pos h1]
    exact ⟨hnum, hkey⟩
  by_cases h2 : f.accessKey ≠ "" ∧ (jsTrim f.accessKey).length = 44 ∧
      ∃ i ∈ s.invoices, i.accessKey = jsTrim f.accessKey
  · simp only [onSubmit, if_neg h1, if_pos h2]
    exact ⟨hnum, hkey⟩
  rcases hfind : (pendingOrders s).find? fun o => decide (o.id = f.orderId) with - | sel
  · simp only [onSubmit, if_neg h1, if_neg h2, hfind]
    exact ⟨hnum, hkey⟩
  · simp only [onSubmit, if_neg h1, if_neg h2, hfind]
    constructor
    · refine numbersNodup_append s.invoices _ hnum ?_
      intro hex
      obtain ⟨i, hi, hieq⟩ := hex
      exact h1 ⟨i, hi, hieq⟩
    · refine keysNodup_append s.invoices _ hkey ?_
      intro hk hex
      obtain ⟨i, hi, hieq⟩ := hex
      have hk2 : (jsTrim f.accessKey).length = 44 := hk
      have hane : f.accessKey ≠ "" := by
        intro he
        rw [he] at hk2
        exact absurd hk2 (by decide)
      exact h2 ⟨hane, hk2, i, hi, hieq⟩

/-- Every reachable store has pairwise-distinct invoice numbers and
pairwise-distinct full-length (44-character) stored access keys. -/
theorem reach_uniqueInv (s : Store) (h : Reach s) :
    invoiceNumbersNodup s ∧ fullAccessKeysNodup s := by
  induction h with
  | init qs hq =>
      exact ⟨List.nodup_nil, List.nodup_nil⟩
  | generateOrder s q newId now hs hq ih =>
      unfold invoiceNumbersNodup fullAccessKeysNodup
      rw [handleGenerateOrder_invoices]
      exact ih
  | generateInvoice s f newId now hs hf ih =>
      exact uniq_onSubmit s f newId now ih
  | cancelInvoice s inv hs hi ih =>
      unfold invoiceNumbersNodup fullAccessKeysNodup
      rw [handleCancelInvoice_invoices_map (fun i => i.invoiceNumber) (fun i => rfl),
        handleCancelInvoice_invoices_map (fun i => i.accessKey) (fun i => rfl)]
      exact ih
  | markBilled s o hs ho ih =>
      unfold invoiceNumbersNodup fullAccessKeysNodup
      rw [handleMarkAsBilled_invoices]
      exact ih

/-- Success characterization of `handleGenerateOrder`: when no order is
linked to the quote, the batch inserts the new order and approves the
quote when needed. -/
theorem handleGenerateOrder_created_eq (s : Store) (q : Orcamento)
    (newId now : String) (hno : ¬ ∃ o ∈ s.orders, o.orcamentoId = q.id) :
    handleGenerateOrder s q newId now =
      (.created
        { id := newId, orcamentoId := q.id,
          customer := { name := q.clientName, email := q.clientEmail },
          date := now, amount := q.price, status := .processando,
          outstanding := q.price, createdAt := now },
       { s with
          orders := s.orders ++
            [{ id := newId, orcamentoId := q.id,
               customer := { name := q.clientName, email := q.clientEmail },
               date := now, amount := q.price, status := .processando,
               outstanding := q.price, createdAt := now }],
          orcamentos :=
            if q.status = .aprovado then s.orcamentos
            else s.orcamentos.map fun qq =>
              if qq.id = q.id then { qq with status := .aprovado } else qq }) := by
  simp only [handleGenerateOrder, if_neg hno]

/-- Success characterization of `onSubmit`: when both duplicate guards pass
and the target order is found among the non-cancelled orders, the invoice
is inserted and the order document updated. -/
theorem onSubmit_created_eq (s : Store) (f : InvoiceFormValues)
    (newId now : String) (sel : Order)
    (h1 : ¬ ∃ i ∈ s.invoices, i.invoiceNumber = jsTrim f.invoiceNumber)
    (h2 : ¬ (f.accessKey ≠ "" ∧ (jsTrim f.accessKey).length = 44 ∧
        ∃ i ∈ s.invoices, i.accessKey = jsTrim f.accessKey))
    (hfind : (pendingOrders s).find? (fun o => decide (o.id = f.orderId))
        = some sel) :
    onSubmit s f newId now =
      (.created
        { id := newId, invoiceNumber := jsTrim f.invoiceNumber,
          accessKey := jsTrim f.accessKey, orderId := f.orderId,
          customerName := sel.customer.name, date := f.issueDate,
          status := .paga, total := f.amount, createdAt := now },
       { s with
          invoices := s.invoices ++
            [{ id := newId, invoiceNumber := jsTrim f.invoiceNumber,
               accessKey := jsTrim f.accessKey, orderId := f.orderId,
               customerName := sel.customer.name, date := f.issueDate,
               status := .paga, total := f.amount, createdAt := now }],
          orders := s.orders.map fun o =>
            if o.id = f.orderId then
              { o with
                outstanding := max 0 (sel.outstanding - f.amount)
                status := if sel.outstanding - f.amount ≤ 0 then .faturado
                  else sel.status }
            else o }) := by
  simp only [onSubmit, if_neg h1, if_neg h2, hfind]

/-- Characterization of `handleCancelInvoice` on a paid invoice whose order
exists: the invoice is cancelled and the order reverted. -/
theorem handleCancelInvoice_paga_eq (s : Store) (inv : Invoice) (od : Order)
    (hp : inv.status = .paga) (hne : inv.orderId ≠ "")
    (hfind : s.orders.find? (fun o => decide (o.id = inv.orderId)) = some od) :
    handleCancelInvoice s inv =
      { s with
        invoices := s.invoices.map fun i =>
          if i.id = inv.id then { i with status := .cancelado } else i
        orders := s.orders.map fun o =>
          if o.id = inv.orderId then
            { o with status := .processando,
                     outstanding := od.outstanding + inv.total }
          else o } := by
  have hc : ¬ inv.status = .cancelado := by
    rw [hp]
    exact fun h => InvoiceStatus.noConfusion h
  simp only [handleCancelInvoice, if_neg hc, if_pos (And.intro hp hne), hfind]

/-- Two members of a list with `Nodup` ids and equal ids are equal. -/
theorem eq_of_nodup_map_id {α β : Type} (g : α → β) (l : List α)
    (hids : (l.map g).Nodup) (a b : α) (ha : a ∈ l) (hb : b ∈ l)
    (hab : g a = g b) : a = b := by
  induction l with
  | nil => exact absurd ha (List.not_mem_nil a)
  | cons x xs ih =>
      rw [List.map_cons, List.nodup_cons] at hids
      rcases List.mem_cons.mp ha with rfl | ha2
      · rcases List.mem_cons.mp hb with rfl | hb2
        · rfl
        · exact absurd (hab ▸ List.mem_map_of_mem g hb2) hids.1
      · rcases List.mem_cons.mp hb with rfl | hb2
        · exact absurd (hab ▸ List.mem_map_of_mem g ha2) hids.1
        · exact ih hids.2 ha2 hb2

/-- `storeW1` is reachable: generate the order of `orcW` from `storeW0`. -/
theorem reach_storeW1 : Reach storeW1 := by
  have h0 : Reach storeW0 := Reach.init [orcW] (by decide)
  have h1 := Reach.generateOrder storeW0 orcW "o1" "t1" h0 (by decide)
  have he : (handleGenerateOrder storeW0 orcW "o1" "t1").2 = storeW1 := by decide
  rw [he] at h1
  exact h1

/-- Evaluating the overpaying invoice generation on `storeW1`. -/
theorem storeC1c_eq : onSubmit storeW1 formC1 "i1" "t2" = (.created invC1, storeC1c) := by
  have hfind : (pendingOrders storeW1).find?
      (fun o => decide (o.id = formC1.orderId)) = some orderW := by decide
  rw [onSubmit_created_eq storeW1 formC1 "i1" "t2" orderW (by decide) (by decide) hfind]
  have h300 : jsTrim "300" = "300" := by decide
  have hemp : jsTrim "" = "" := by decide
  norm_num [storeW1, storeC1c, invC1, formC1, orderW, orcWapr, h300, hemp]

/-- Evaluating the cancellation of the overpaying invoice. -/
theorem storeC1final_eq : handleCancelInvoice storeC1c invC1 = storeC1final := by
  have hfind : storeC1c.orders.find?
      (fun o => decide (o.id = invC1.orderId))
      = some { orderW with outstanding := 0, status := .faturado } := by decide
  rw [handleCancelInvoice_paga_eq storeC1c invC1 _ (by decide) (by decide) hfind]
  norm_num [storeC1c, storeC1final, invC1, orderW, orcWapr]

/-- The store with outstanding 2000 > amount 1250 is reachable. -/
theorem reach_storeC1final : Reach storeC1final := by
  have h1 := Reach.generateInvoice storeW1 formC1 "i1" "t2" reach_storeW1 (by decide)
  rw [show (onSubmit storeW1 formC1 "i1" "t2").2 = storeC1c from
    congrArg Prod.snd storeC1c_eq] at h1
  have h2 := Reach.cancelInvoice storeC1c invC1 h1 (by decide)
  rw [storeC1final_eq] at h2
  exact h2

/-- `storeC2b` is reachable: generate the order of `orcC2`. -/
theorem reach_storeC2b : Reach storeC2b := by
  have h0 : Reach storeC2a := Reach.init [orcC2] (by decide)
  have h1 := Reach.generateOrder storeC2a orcC2 "o2" "t1" h0 (by decide)
  have he : (handleGenerateOrder storeC2a orcC2 "o2" "t1").2 = storeC2b := by decide
  rw [he] at h1
  exact h1

/-- Evaluating the first invoice of the duplicate-access-key trace. -/
theorem storeC2c_eq : onSubmit storeC2b formC2a "iA" "t2" = (.created invC2a, storeC2c) := by
  have hfind : (pendingOrders storeC2b).find?
      (fun o => decide (o.id = formC2a.orderId)) = some ordC2 := by decide
  rw [onSubmit_created_eq storeC2b formC2a "iA" "t2" ordC2 (by decide) (by decide) hfind]
  have hA : jsTrim "A1" = "A1" := by decide
  have hk : jsTrim key44 = key43 := by decide
  norm_num [storeC2b, storeC2c, invC2a, formC2a, ordC2, orcC2apr, hA, hk]

/-- Evaluating the second invoice: same access key, fresh number.  The trim
of `key44` is 43 characters long, so the duplicate-access-key guard is
skipped and the invoice is persisted. -/
theorem storeC2final_eq : onSubmit storeC2c formC2b "iB" "t3" = (.created invC2b, storeC2final) := by
  have hfind : (pendingOrders storeC2c).find?
      (fun o => decide (o.id = formC2b.orderId))
      = some { ordC2 with outstanding := 99 } := by decide
  rw [onSubmit_created_eq storeC2c formC2b "iB" "t3" _ (by decide) (by decide) hfind]
  have hB : jsTrim "B2" = "B2" := by decide
  have hk : jsTrim key44 = key43 := by decide
  norm_num [storeC2c, storeC2final, invC2a, invC2b, formC2b, ordC2, orcC2apr, hB, hk]

/-- The store holding two invoices with the same non-empty stored access
key is reachable. -/
theorem reach_storeC2final : Reach storeC2final := by
  have h1 := Reach.generateInvoice storeC2b formC2a "iA" "t2" reach_storeC2b (by decide)
  rw [show (onSubmit storeC2b formC2a "iA" "t2").2 = storeC2c from
    congrArg Prod.snd storeC2c_eq] at h1
  have h2 := Reach.generateInvoice storeC2c formC2b "iB" "t3" h1 (by decide)
  rw [show (onSubmit storeC2c formC2b "iB" "t3").2 = storeC2final from
    congrArg Prod.snd storeC2final_eq] at h2
  exact h2

/-! ### Claim theorems -/

/-- C1 (counterexample): the claimed invariant `0 ≤ outstanding ≤ amount`
fails on a reachable store.  From an order with `amount = outstanding =
1250`, `onSubmit` with an invoice of 2000 floors the outstanding at 0, and
`handleCancelInvoice` then restores the full invoice total, leaving
`outstanding = 2000 > amount = 1250`. -/
theorem outstandingBounds_counterexample :
    Reach storeC1final ∧ ¬ outstandingBounds storeC1final :=
  ⟨reach_storeC1final, by decide⟩

/-- C1 (amended): in every state reachable by the four lifecycle
operations, every order satisfies `0 ≤ outstanding`; the upper bound
`outstanding ≤ amount` is not an invariant. -/
theorem reach_outstandingNonneg (s : Store) (h : Reach s) :
    outstandingNonneg s :=
  fun o ho => ((reach_lifecycleInv s h).2.2 o ho).1

/-- Witness for C1 (amended) at the concrete reachable store `storeW1`. -/
theorem reach_outstandingNonneg_witness : outstandingNonneg storeW1 :=
  reach_outstandingNonneg storeW1 reach_storeW1

/-- C2 (counterexample): invoice numbers stay unique, but two persisted
invoices can share the same non-empty access key.  `key44` has 44
characters (passing the zod length check) but its trim has only 43, so the
duplicate-access-key guard never runs for it; two `onSubmit` calls with
`key44` and distinct numbers persist two invoices whose stored access key
is the same non-empty 43-character string. -/
theorem accessKeyUniqueness_counterexample :
    Reach storeC2final ∧
      ¬ (invoiceNumbersNodup storeC2final ∧ nonEmptyAccessKeysNodup storeC2final) :=
  ⟨reach_storeC2final, by decide⟩

/-- C2 (amended): in every reachable state no two persisted invoices share
an invoice number, and no two persisted invoices whose stored access key
has the full 44-character length share that access key. -/
theorem reach_invoiceUniqueness (s : Store) (h : Reach s) :
    invoiceNumbersNodup s ∧ fullAccessKeysNodup s :=
  reach_uniqueInv s h

/-- Witness for C2 (amended) at the concrete reachable store
`storeC2final`. -/
theorem reach_invoiceUniqueness_witness :
    invoiceNumbersNodup storeC2final ∧ fullAccessKeysNodup storeC2final :=
  reach_invoiceUniqueness storeC2final reach_storeC2final

/-- C3: immediately after any `onSubmit` call (on a validated form) and any
`handleMarkAsBilled` call from a reachable store, every order — in
particular the updated one — satisfies `status = 'Faturado'` iff
`outstanding = 0`. -/
theorem invoicedIffSettled_after_ops (s : Store) (f : InvoiceFormValues)
    (newId now : String) (ob : Order) (h : Reach s) (hf : f.valid)
    (hob : ob ∈ s.orders) :
    invoicedIffSettled (onSubmit s f newId now).2 ∧
      invoicedIffSettled (handleMarkAsBilled s ob) := by
  constructor
  · intro o ho
    exact ((reach_lifecycleInv _
      (Reach.generateInvoice s f newId now h hf)).2.2 o ho).2
  · intro o ho
    exact ((reach_lifecycleInv _ (Reach.markBilled s ob h hob)).2.2 o ho).2

/-- Witness for C3 at `storeW1`, a full-amount invoice form and the
concrete order `orderW`. -/
theorem invoicedIffSettled_after_ops_witness :
    invoicedIffSettled (onSubmit storeW1 formW3 "i1" "t2").2 ∧
      invoicedIffSettled (handleMarkAsBilled storeW1 orderW) :=
  invoicedIffSettled_after_ops storeW1 formW3 "i1" "t2" orderW reach_storeW1
    (by decide) (by decide)

/-- C4: on a quote with no linked order, `handleGenerateOrder` creates
exactly one new order with the customer snapshot copied from the quote,
`amount = outstanding = quote.price`, status `'Processando'` and
`orcamentoId = quote.id`; every stored quote with the quote's id ends up
`'Aprovado'`; invoices are untouched. -/
theorem handleGenerateOrder_constructs (s : Store) (q : Orcamento)
    (newId now : String)
    (hno : ∀ o ∈ s.orders, o.orcamentoId ≠ q.id)
    (hq : q ∈ s.orcamentos)
    (hids : (s.orcamentos.map fun x => x.id).Nodup) :
    (handleGenerateOrder s q newId now).1 = .created
        { id := newId, orcamentoId := q.id,
          customer := { name := q.clientName, email := q.clientEmail },
          date := now, amount := q.price, status := .processando,
          outstanding := q.price, createdAt := now } ∧
    (handleGenerateOrder s q newId now).2.orders = s.orders ++
        [{ id := newId, orcamentoId := q.id,
           customer := { name := q.clientName, email := q.clientEmail },
           date := now, amount := q.price, status := .processando,
           outstanding := q.price, createdAt := now }] ∧
    (∀ qq ∈ (handleGenerateOrder s q newId now).2.orcamentos,
        qq.id = q.id → qq.status = .aprovado) ∧
    (handleGenerateOrder s q newId now).2.invoices = s.invoices := by
  have hno2 : ¬ ∃ o ∈ s.orders, o.orcamentoId = q.id := by
    intro hex
    obtain ⟨o, ho, he⟩ := hex
    exact hno o ho he
  rw [handleGenerateOrder_created_eq s q newId now hno2]
  refine ⟨rfl, rfl, ?_, rfl⟩
  intro qq hqq hid
  by_cases happ : q.status = .aprovado
  · rw [if_pos happ] at hqq
    have : qq = q := eq_of_nodup_map_id (fun x => x.id) s.orcamentos hids qq q hqq hq hid
    rw [this, happ]
  · rw [if_neg happ] at hqq
    obtain ⟨q0, hq0, hmap⟩ := List.mem_map.mp hqq
    by_cases h0 : q0.id = q.id
    · rw [if_pos h0] at hmap
      rw [← hmap]
    · rw [if_neg h0] at hmap
      rw [← hmap] at hid
      exact absurd hid h0

/-- Witness for C4: generating the order of `orcW` from `storeW0`. -/
theorem handleGenerateOrder_constructs_witness :
    (handleGenerateOrder storeW0 orcW "o1" "t1").1 = .created orderW ∧
    (handleGenerateOrder storeW0 orcW "o1" "t1").2.orders =
      storeW0.orders ++ [orderW] ∧
    (∀ qq ∈ (handleGenerateOrder storeW0 orcW "o1" "t1").2.orcamentos,
        qq.id = orcW.id → qq.status = .aprovado) ∧
    (handleGenerateOrder storeW0 orcW "o1" "t1").2.invoices = storeW0.invoices :=
  handleGenerateOrder_constructs storeW0 orcW "o1" "t1" (by decide) (by decide)
    (by decide)

/-- C5: after a successful `handleGenerateOrder`, a second call on the same
quote reports the duplicate outcome and performs no write, and exactly one
order linked to the quote exists. -/
theorem handleGenerateOrder_second_duplicate (s : Store) (q : Orcamento)
    (newId now newId2 now2 : String)
    (hno : ¬ ∃ o ∈ s.orders, o.orcamentoId = q.id) :
    handleGenerateOrder (handleGenerateOrder s q newId now).2 q newId2 now2 =
      (.duplicate, (handleGenerateOrder s q newId now).2) ∧
    ((handleGenerateOrder s q newId now).2.orders.filter
        fun o => decide (o.orcamentoId = q.id)).length = 1 := by
  rw [handleGenerateOrder_created_eq s q newId now hno]
  constructor
  · have hex : ∃ o ∈ (s.orders ++
        [{ id := newId, orcamentoId := q.id,
           customer := { name := q.clientName, email := q.clientEmail },
           date := now, amount := q.price, status := OrderStatus.processando,
           outstanding := q.price, createdAt := now }]), o.orcamentoId = q.id := by
      refine ⟨_, List.mem_append.mpr (Or.inr (List.mem_singleton.mpr rfl)), rfl⟩
    simp only [handleGenerateOrder, if_pos hex]
  · show ((s.orders ++
        [({ id := newId, orcamentoId := q.id,
            customer := { name := q.clientName, email := q.clientEmail },
            date := now, amount := q.price, status := OrderStatus.processando,
            outstanding := q.price, createdAt := now } : Order)]).filter
        fun o => decide (o.orcamentoId = q.id)).length = 1
    rw [List.filter_append]
    have h1 : (s.orders.filter fun o => decide (o.orcamentoId = q.id)) = [] := by
      refine List.filter_eq_nil_iff.mpr ?_
      intro o ho hdec
      exact hno ⟨o, ho, of_decide_eq_true hdec⟩
    rw [h1]
    simp [List.filter]

/-- Witness for C5: generating twice from `orcW` on `storeW0`. -/
theorem handleGenerateOrder_second_duplicate_witness :
    handleGenerateOrder (handleGenerateOrder storeW0 orcW "o1" "t1").2 orcW
        "o2" "t2" = (.duplicate, (handleGenerateOrder storeW0 orcW "o1" "t1").2) ∧
    ((handleGenerateOrder storeW0 orcW "o1" "t1").2.orders.filter
        fun o => decide (o.orcamentoId = orcW.id)).length = 1 :=
  handleGenerateOrder_second_duplicate storeW0 orcW "o1" "t1" "o2" "t2"
    (by decide)

/-- In the invoice list rewritten by `handleCancelInvoice`, every invoice
carrying the cancelled invoice's id has status `'Cancelado'`. -/
theorem mem_cancelMap (l : List Invoice) (inv : Invoice) :
    ∀ i ∈ l.map fun i =>
        if i.id = inv.id then { i with status := InvoiceStatus.cancelado } else i,
      i.id = inv.id → i.status = .cancelado := by
  intro i hi hid
  obtain ⟨i0, hi0, hmap⟩ := List.mem_map.mp hi
  by_cases h : i0.id = inv.id
  · rw [if_pos h] at hmap
    rw [← hmap]
  · rw [if_neg h] at hmap
    rw [← hmap] at hid
    exact absurd hid h

/-- C6: cancelling a paid invoice whose `orderId` resolves to an existing
order sets the invoice's status to `'Cancelado'` and updates that order to
`outstanding = previous outstanding + invoice.total` and status
`'Processando'` — with no assumption on the order's current status. -/
theorem handleCancelInvoice_reverts (s : Store) (inv : Invoice) (od : Order)
    (hp : inv.status = .paga) (hne : inv.orderId ≠ "")
    (hfind : s.orders.find? (fun o => decide (o.id = inv.orderId)) = some od) :
    (∀ i ∈ (handleCancelInvoice s inv).invoices,
        i.id = inv.id → i.status = .cancelado) ∧
    (∀ o ∈ (handleCancelInvoice s inv).orders, o.id = inv.orderId →
        o.status = .processando ∧
          o.outstanding = od.outstanding + inv.total) := by
  rw [handleCancelInvoice_paga_eq s inv od hp hne hfind]
  constructor
  · exact mem_cancelMap s.invoices inv
  · intro o ho hid
    obtain ⟨o0, ho0, hmap⟩ := List.mem_map.mp ho
    by_cases h : o0.id = inv.orderId
    · rw [if_pos h] at hmap
      rw [← hmap]
      exact ⟨rfl, rfl⟩
    · rw [if_neg h] at hmap
      rw [← hmap] at hid
      exact absurd hid h

/-- Witness for C6: cancelling the paid invoice `invW` over `orderW`. -/
theorem handleCancelInvoice_reverts_witness :
    (∀ i ∈ (handleCancelInvoice storeW2 invW).invoices,
        i.id = invW.id → i.status = .cancelado) ∧
    (∀ o ∈ (handleCancelInvoice storeW2 invW).orders, o.id = invW.orderId →
        o.status = .processando ∧
          o.outstanding = orderW.outstanding + invW.total) :=
  handleCancelInvoice_reverts storeW2 invW orderW (by decide) (by decide)
    (by decide)

/-- C7: an `onSubmit` call whose trimmed invoice number is already carried
by a persisted invoice is rejected before any write: the result is the
duplicate-number outcome and the store — invoices and orders alike — is
returned unchanged. -/
theorem onSubmit_duplicateNumber (s : Store) (f : InvoiceFormValues)
    (newId now : String)
    (hdup : ∃ i ∈ s.invoices, i.invoiceNumber = jsTrim f.invoiceNumber) :
    onSubmit s f newId now = (.duplicateInvoiceNumber, s) := by
  simp only [onSubmit, if_pos hdup]

/-- Witness for C7: `formW7`, whose number `" 100 "` trims to the number of
the persisted invoice `invW`. -/
theorem onSubmit_duplicateNumber_witness :
    onSubmit storeW2 formW7 "i9" "t9" = (.duplicateInvoiceNumber, storeW2) :=
  onSubmit_duplicateNumber storeW2 formW7 "i9" "t9" (by decide)

/-- C8: `handleCancelInvoice` on an invoice whose status is already
`'Cancelado'` returns the store unchanged (no write), so cancelling the
same invoice twice — the second call seeing the invoice the first call
cancelled — never applies the order reversal twice. -/
theorem handleCancelInvoice_idempotent (s : Store) (inv : Invoice) :
    handleCancelInvoice s { inv with status := .cancelado } = s ∧
    handleCancelInvoice (handleCancelInvoice s inv)
        { inv with status := .cancelado } = handleCancelInvoice s inv := by
  have hnoop : ∀ t : Store,
      handleCancelInvoice t { inv with status := InvoiceStatus.cancelado } = t := by
    intro t
    simp [handleCancelInvoice]
  exact ⟨hnoop s, hnoop (handleCancelInvoice s inv)⟩

/-- C9: an order with status `'Cancelado'` is excluded from the dialog's
candidate list, so — when the duplicate guards pass — an `onSubmit` call
targeting it is rejected with the order-not-found outcome and the store is
returned unchanged, even though the order exists in the store. -/
theorem onSubmit_cancelledOrder_notFound (s : Store) (f : InvoiceFormValues)
    (newId now : String) (o : Order)
    (h1 : ¬ ∃ i ∈ s.invoices, i.invoiceNumber = jsTrim f.invoiceNumber)
    (h2 : ¬ (f.accessKey ≠ "" ∧ (jsTrim f.accessKey).length = 44 ∧
        ∃ i ∈ s.invoices, i.accessKey = jsTrim f.accessKey))
    (ho : o ∈ s.orders) (hoc : o.status = .cancelado) (hid : f.orderId = o.id)
    (hids : (s.orders.map fun x => x.id).Nodup) :
    onSubmit s f newId now = (.orderNotFound, s) := by
  have hfind : (pendingOrders s).find?
      (fun x => decide (x.id = f.orderId)) = none := by
    rw [List.find?_eq_none]
    intro a ha hdec
    have haid : a.id = f.orderId := of_decide_eq_true hdec
    have hmem := List.mem_filter.mp ha
    have hnc : ¬ a.status = .cancelado := of_decide_eq_true hmem.2
    have hao : a = o := eq_of_nodup_map_id (fun x => x.id) s.orders hids a o
      hmem.1 ho (by show a.id = o.id; rw [haid, hid])
    rw [hao] at hnc
    exact hnc hoc
  simp only [onSubmit, if_neg h1, if_neg h2, hfind]

/-- Witness for C9: invoicing the cancelled order `orderWc` in `storeW3`. -/
theorem onSubmit_cancelledOrder_notFound_witness :
    onSubmit storeW3 formW9 "i9" "t9" = (.orderNotFound, storeW3) :=
  onSubmit_cancelledOrder_notFound storeW3 formW9 "i9" "t9" orderWc
    (by decide) (by decide) (by decide) (by decide) (by decide) (by decide)

/-- C10: cancelling a paid invoice whose `orderId` matches no order still
cancels the invoice and completes — the orders (and quotes) are left
exactly as they were. -/
theorem handleCancelInvoice_orderMissing (s : Store) (inv : Invoice)
    (hp : inv.status = .paga)
    (hn : s.orders.find? (fun o => decide (o.id = inv.orderId)) = none) :
    (handleCancelInvoice s inv).orders = s.orders ∧
    (handleCancelInvoice s inv).orcamentos = s.orcamentos ∧
    ∀ i ∈ (handleCancelInvoice s inv).invoices,
      i.id = inv.id → i.status = .cancelado := by
  have hc : ¬ inv.status = .cancelado := by
    rw [hp]
    exact fun h => InvoiceStatus.noConfusion h
  by_cases hne : inv.orderId ≠ ""
  · simp only [handleCancelInvoice, if_neg hc, if_pos (And.intro hp hne), hn]
    exact ⟨by trivial, by trivial, mem_cancelMap s.invoices inv⟩
  · have hpo : ¬ (inv.status = .paga ∧ inv.orderId ≠ "") := fun h => hne h.2
    simp only [handleCancelInvoice, if_neg hc, if_neg hpo]
    exact ⟨by trivial, by trivial, mem_cancelMap s.invoices inv⟩

/-- Witness for C10: cancelling `invW10`, whose `orderId` `"oX"` matches no
order of `storeW2`. -/
theorem handleCancelInvoice_orderMissing_witness :
    (handleCancelInvoice storeW2 invW10).orders = storeW2.orders ∧
    (handleCancelInvoice storeW2 invW10).orcamentos = storeW2.orcamentos ∧
    ∀ i ∈ (handleCancelInvoice storeW2 invW10).invoices,
      i.id = invW10.id → i.status = .cancelado :=
  handleCancelInvoice_orderMissing storeW2 invW10 (by decide) (by decide)
